import Mathlib

/-!
Verification of the braid-mock server core (`server.go`): the version hasher,
the subscription registry, the update dispatcher and the HTTP subscribe
handler, shallowly embedded as executable Lean definitions.

Resource bodies (`[]byte` in Go) are modelled as `List Nat` with each element
a byte value.  The opaque connection sink (`http.ResponseWriter`) is modelled
by recording the frames written to it; whether the body write of a full
update succeeds (`sub.W.Write` in Go) is an environment parameter keyed by
the subscription's ID.  The external JSON diff library
(`jsondiff.CompareJSON`) is a parameter of the dispatch model: `none` stands
for a diff error, `some ops` for a successful diff producing `ops`.
-/

namespace BraidMock

/-- Byte strings (`[]byte`): lists of byte values. -/
abbrev ByteStr := List Nat

/-- View an ASCII string as a byte string (used for concrete examples). -/
def strBytes (s : String) : ByteStr := s.data.map Char.toNat

/-! ### Version hasher (`calculateHash`, server.go lines 482-486)

Go computes `crc32.Checksum(data, crc32.MakeTable(crc32.IEEE))` and formats
it as `"%08x"` wrapped in double quotes.  The IEEE CRC-32 is the reflected
algorithm with polynomial `0xEDB88320`. -/

/-- Reflected CRC-32 polynomial used by Go's `crc32.IEEE` table. -/
def crc32Poly : Nat := 0xEDB88320

/-- One bit step of the reflected CRC-32. -/
def crc32Step (crc : Nat) : Nat :=
  if crc % 2 = 1 then Nat.xor (crc / 2) crc32Poly else crc / 2

/-- Fold one input byte into the CRC accumulator (eight bit steps). -/
def crc32Byte (crc b : Nat) : Nat :=
  let c := Nat.xor crc (b % 256)
  crc32Step (crc32Step (crc32Step (crc32Step
    (crc32Step (crc32Step (crc32Step (crc32Step c)))))))

/-- CRC-32 (IEEE) of a byte string, as in Go's `crc32.Checksum`. -/
def crc32 (data : ByteStr) : Nat :=
  Nat.xor (data.foldl crc32Byte 0xFFFFFFFF) 0xFFFFFFFF

/-- Lowercase hexadecimal digit. -/
def hexDigit (n : Nat) : Char :=
  if n < 10 then Char.ofNat (48 + n) else Char.ofNat (87 + n)

/-- `k` lowercase hex digits of `n`, most significant first (zero padded). -/
def toHexAux : Nat → Nat → List Char
  | 0, _ => []
  | k + 1, n => toHexAux k (n / 16) ++ [hexDigit (n % 16)]

/-- `calculateHash` (server.go): CRC-32 of the data, formatted as eight
lowercase hex digits wrapped in double quotes (`"%08x"` with quotes). -/
def calculateHash (data : ByteStr) : String :=
  "\"" ++ String.mk (toHexAux 8 (crc32 data)) ++ "\""

/-! ### Association-list maps

Go's `map[string]V` is modelled as an association list with the three
operations the server uses: lookup, insert/replace and delete. -/

/-- Lookup (`m[k]` with presence flag). -/
def lookupKey {α : Type} (k : String) : List (String × α) → Option α
  | [] => none
  | (k2, v) :: rest => if k2 = k then some v else lookupKey k rest

/-- Insert or replace (`m[k] = v`). -/
def setKey {α : Type} (k : String) (v : α) : List (String × α) → List (String × α)
  | [] => [(k, v)]
  | (k2, v2) :: rest => if k2 = k then (k, v) :: rest else (k2, v2) :: setKey k v rest

/-- Delete (`delete(m, k)`). -/
def eraseKey {α : Type} (k : String) : List (String × α) → List (String × α)
  | [] => []
  | (k2, v) :: rest => if k2 = k then eraseKey k rest else (k2, v) :: eraseKey k rest

/-! ### Subscription registry (server.go lines 32-39, 199-237) -/

/-- `Subscription` (server.go): the sink fields `W`/`F` are opaque handles and
are represented by the subscription's ID in the write-success environment. -/
structure Subscription where
  ID : String
  LastResource : ByteStr
  LastHash : String
deriving Repr, DecidableEq

/-- Per-resource bucket: `map[string]Subscription`. -/
abbrev Bucket := List (String × Subscription)

/-- `subscriptions` field: `map[string]map[string]Subscription`. -/
abbrev Registry := List (String × Bucket)

/-- `AddSubscription` (server.go lines 199-221).  The generated random
subscription ID is a parameter (`generateRandomID` is wall-clock based). -/
def addSubscription (reg : Registry) (resourceID subID : String)
    (initialResource : ByteStr) : Registry :=
  let bucket := (lookupKey resourceID reg).getD []
  setKey resourceID
    (setKey subID ⟨subID, initialResource, calculateHash initialResource⟩ bucket) reg

/-- `RemoveSubscription` (server.go lines 223-237): delete the entry; if the
bucket becomes empty, delete the bucket; no-op if the resource is absent. -/
def removeSubscription (reg : Registry) (resourceID subID : String) : Registry :=
  match lookupKey resourceID reg with
  | none => reg
  | some bucket =>
      let bucket2 := eraseKey subID bucket
      if bucket2.isEmpty then eraseKey resourceID reg
      else setKey resourceID bucket2 reg

/-! ### Basic association-list lemmas -/

theorem lookupKey_setKey_self {α : Type} (k : String) (v : α) (l : List (String × α)) :
    lookupKey k (setKey k v l) = some v := by
  induction l with
  | nil => simp [setKey, lookupKey]
  | cons hd tl ih =>
    obtain ⟨k2, v2⟩ := hd
    by_cases h : k2 = k
    · simp [setKey, h, lookupKey]
    · simp [setKey, h, lookupKey, ih]

theorem lookupKey_setKey_ne {α : Type} {k k' : String} (v : α) (l : List (String × α))
    (h : k' ≠ k) : lookupKey k' (setKey k v l) = lookupKey k' l := by
  induction l with
  | nil => simp [setKey, lookupKey, Ne.symm h]
  | cons hd tl ih =>
    obtain ⟨k2, v2⟩ := hd
    by_cases h2 : k2 = k
    · subst h2
      simp [setKey, lookupKey, Ne.symm h]
    · simp only [setKey, if_neg h2, lookupKey]
      rw [ih]

theorem lookupKey_eraseKey_self {α : Type} (k : String) (l : List (String × α)) :
    lookupKey k (eraseKey k l) = none := by
  induction l with
  | nil => simp [eraseKey, lookupKey]
  | cons hd tl ih =>
    obtain ⟨k2, v2⟩ := hd
    by_cases h : k2 = k
    · simp [eraseKey, h, ih]
    · simp [eraseKey, h, lookupKey, ih]

theorem lookupKey_eraseKey_ne {α : Type} {k k' : String} (l : List (String × α))
    (h : k' ≠ k) : lookupKey k' (eraseKey k l) = lookupKey k' l := by
  induction l with
  | nil => simp [eraseKey]
  | cons hd tl ih =>
    obtain ⟨k2, v2⟩ := hd
    by_cases h2 : k2 = k
    · subst h2
      simp [eraseKey, lookupKey, Ne.symm h, ih]
    · simp only [eraseKey, if_neg h2, lookupKey]
      by_cases h3 : k2 = k'
      · simp [h3]
      · simp [h3, ih]

theorem eraseKey_eraseKey {α : Type} (k : String) (l : List (String × α)) :
    eraseKey k (eraseKey k l) = eraseKey k l := by
  induction l with
  | nil => simp [eraseKey]
  | cons hd tl ih =>
    obtain ⟨k2, v2⟩ := hd
    by_cases h : k2 = k
    · simp [eraseKey, h, ih]
    · simp [eraseKey, h, ih]

theorem setKey_setKey {α : Type} (k : String) (v : α) (l : List (String × α)) :
    setKey k v (setKey k v l) = setKey k v l := by
  induction l with
  | nil => simp [setKey]
  | cons hd tl ih =>
    obtain ⟨k2, v2⟩ := hd
    by_cases h : k2 = k
    · simp [setKey, h]
    · simp [setKey, h, ih]

theorem setKey_ne_nil {α : Type} (k : String) (v : α) (l : List (String × α)) :
    setKey k v l ≠ [] := by
  cases l with
  | nil => simp [setKey]
  | cons hd tl =>
    obtain ⟨k2, v2⟩ := hd
    by_cases h : k2 = k <;> simp [setKey, h]

/-! ### Update dispatcher (server.go lines 239-344)

`notifySubscribers` iterates over the resource's bucket; for each
subscription it either skips (hash already current), sends a full update
(empty last body, or patch fallback), or sends a patch; afterwards it
unconditionally stores the new body/hash for that subscription.  What the
code writes to each subscriber's sink is recorded as a `SinkEvent`. -/

/-- A `jsondiff` operation as used by `sendPatchUpdate`: `op.Type`,
`op.Path`, and the JSON marshalling of `op.Value`. -/
structure PatchOp where
  opType : String
  path : String
  value : String
deriving Repr, DecidableEq

/-- A frame written to one subscriber's sink.  `delivered` is whether the
body write (`sub.W.Write`) succeeded; header writes via `fmt.Fprintf` have
their errors discarded by the code. -/
inductive SinkEvent where
  | full (version : String) (body : ByteStr) (delivered : Bool)
  | patch (version : String) (parents : String) (ops : List PatchOp)
deriving Repr, DecidableEq

/-- Environment of a dispatch: the external JSON diff
(`jsondiff.CompareJSON`; `none` = error, `some ops` = success) and whether
the body write on a given subscription's sink succeeds. -/
structure NotifyCtx where
  diff : ByteStr → ByteStr → Option (List PatchOp)
  writeOk : String → Bool

/-- `sendFullUpdate` (server.go lines 286-303): writes the full-update frame;
returns whether the body write succeeded (the Go function's `error` result,
`true` = `nil`). -/
def sendFullUpdate (ctx : NotifyCtx) (sub : Subscription) (data : ByteStr)
    (hash : String) : SinkEvent × Bool :=
  (SinkEvent.full hash data (ctx.writeOk sub.ID), ctx.writeOk sub.ID)

/-- `sendPatchUpdate` (server.go lines 305-344): diff the subscriber's last
body against the new data; on diff error return the error (`(none, false)`);
on zero operations return `nil` without writing (`(none, true)`); otherwise
write a patch frame whose `Parents` is `sub.LastHash` (write errors in this
path are discarded, so it returns `nil`). -/
def sendPatchUpdate (ctx : NotifyCtx) (sub : Subscription) (newData : ByteStr)
    (newHash : String) : Option SinkEvent × Bool :=
  match ctx.diff sub.LastResource newData with
  | none => (none, false)
  | some [] => (none, true)
  | some ops => (some (SinkEvent.patch newHash sub.LastHash ops), true)

/-- The frames `notifySubscribers` writes for one bucket entry
(server.go lines 253-270), tagged with the entry's key. -/
def subEvents (ctx : NotifyCtx) (newData : ByteStr) (newHash : String)
    (entry : String × Subscription) : List (String × SinkEvent) :=
  let subID := entry.1
  let sub := entry.2
  if sub.LastHash = newHash then []
  else if sub.LastResource.isEmpty then
    [(subID, (sendFullUpdate ctx sub newData newHash).1)]
  else
    match sendPatchUpdate ctx sub newData newHash with
    | (some ev, _) => [(subID, ev)]
    | (none, true) => []
    | (none, false) => [(subID, (sendFullUpdate ctx sub newData newHash).1)]

/-- The unconditional store of the new body/hash for one subscription
(server.go lines 272-282): re-look up the bucket and the entry and, when
present, overwrite its `LastResource`/`LastHash`. -/
def updateStored (resourceID subID : String) (newData : ByteStr)
    (newHash : String) (reg : Registry) : Registry :=
  match lookupKey resourceID reg with
  | none => reg
  | some bucket =>
      match lookupKey subID bucket with
      | none => reg
      | some subscription =>
          setKey resourceID
            (setKey subID
              { subscription with LastResource := newData, LastHash := newHash }
              bucket) reg

/-- One iteration of the dispatch loop (server.go lines 253-283): skip when
the stored hash equals the new hash (`continue`), otherwise emit the entry's
frames and store the new body/hash. -/
def processSub (ctx : NotifyCtx) (resourceID : String) (newData : ByteStr)
    (newHash : String) (acc : Registry × List (String × SinkEvent))
    (entry : String × Subscription) : Registry × List (String × SinkEvent) :=
  let reg2 :=
    if entry.2.LastHash = newHash then acc.1
    else updateStored resourceID entry.1 newData newHash acc.1
  (reg2, acc.2 ++ subEvents ctx newData newHash entry)

/-- `notifySubscribers` (server.go lines 239-284): returns the registry after
the dispatch together with the list of frames written, each tagged with the
receiving subscription's key. -/
def notifySubscribers (ctx : NotifyCtx) (reg : Registry) (resourceID : String)
    (newData : ByteStr) : Registry × List (String × SinkEvent) :=
  match lookupKey resourceID reg with
  | none => (reg, [])
  | some subs =>
      if subs.isEmpty then (reg, [])
      else
        let newHash := calculateHash newData
        subs.foldl (processSub ctx resourceID newData newHash) (reg, [])

/-- The frames a given subscription key received during a dispatch. -/
def eventsFor (subID : String) (evs : List (String × SinkEvent)) : List SinkEvent :=
  (evs.filter (fun p => p.1 = subID)).map Prod.snd

/-! ### Operation sequences (reachable registry states) -/

/-- A registry operation: the two `Registry` mutators of the server. -/
inductive RegOp where
  | add (resourceID subID : String) (initialResource : ByteStr)
  | remove (resourceID subID : String)

/-- Apply one registry operation. -/
def applyRegOp (reg : Registry) : RegOp → Registry
  | .add rid sid body => addSubscription reg rid sid body
  | .remove rid sid => removeSubscription reg rid sid

/-- Run a sequence of registry operations from the empty registry. -/
def runRegOps (ops : List RegOp) : Registry :=
  ops.foldl applyRegOp []

/-- A server operation touching the registry: add, remove, or a dispatch of
a change event (`notifySubscribers` with its environment). -/
inductive ServerOp where
  | add (resourceID subID : String) (initialResource : ByteStr)
  | remove (resourceID subID : String)
  | notify (resourceID : String) (newData : ByteStr) (ctx : NotifyCtx)

/-- Apply one server operation to the registry. -/
def applyServerOp (reg : Registry) : ServerOp → Registry
  | .add rid sid body => addSubscription reg rid sid body
  | .remove rid sid => removeSubscription reg rid sid
  | .notify rid newData ctx => (notifySubscribers ctx reg rid newData).1

/-- Run a sequence of server operations from the empty registry. -/
def runServerOps (ops : List ServerOp) : Registry :=
  ops.foldl applyServerOp []

/-- No entry of the registry maps a resource to an empty bucket. -/
def noEmptyBucketsB (reg : Registry) : Bool :=
  reg.all (fun p => !p.2.isEmpty)

/-- One stored subscription's hash is the hash of its stored body. -/
def subHashOkB (q : String × Subscription) : Bool :=
  q.2.LastHash == calculateHash q.2.LastResource

/-- Every stored subscription's hash is the hash of its stored body. -/
def hashOkB (reg : Registry) : Bool :=
  reg.all (fun p => p.2.all subHashOkB)

/-! ### HTTP subscribe handler (server.go lines 346-430)

Modelled for a resource whose backing file exists and reads successfully,
over a connection that may or may not support flushing.  The `Subscribe`
header lookup: `r.Header.Get("Subscribe")` and `r.Header.Get("subscribe")`
canonicalize to the same header name (Go's `net/http` matches header names
case-insensitively), so the condition is an exact, case-sensitive comparison
of the header's value with `"true"`. -/

/-- The parts of the request the handler branches on: the value of the
`Subscribe` header (name already matched case-insensitively), and whether
the response writer supports `http.Flusher`. -/
structure BraidRequest where
  subscribeHeader : Option String
  flushable : Bool
deriving Repr, DecidableEq

/-- The observable response: status code, headers set, the bytes written to
the body stream before the handler parks, and whether a subscription was
registered. -/
structure BraidResponse where
  status : Nat
  headers : List (String × String)
  initialBody : String
  subscribed : Bool
deriving Repr, DecidableEq

/-- Byte string rendered as the characters written to the stream. -/
def bytesToString (data : ByteStr) : String :=
  String.mk (data.map Char.ofNat)

/-- CRLF line ending. -/
def crlf : String := "\r\n"

/-- The full-update wire frame (server.go lines 289-300 and 406-411):
version line, empty parents line, content length, blank line, body, and the
five-CRLF stream separator. -/
def encodeFullFrame (hash : String) (data : ByteStr) : String :=
  "Version: " ++ hash ++ crlf ++
  "Parents: " ++ crlf ++
  "Content-Length: " ++ toString data.length ++ crlf ++
  crlf ++ bytesToString data ++ crlf ++ crlf ++ crlf ++ crlf ++ crlf

/-- `handleBraidRequest` (server.go lines 346-430) for an existing, readable
resource file with content `data`: sets the common headers, then either
starts a subscription stream (status 209 plus the initial full-update
frame), rejects a non-flushable subscribe with 500, or answers a plain GET
with the raw bytes. -/
def handleBraidRequest (req : BraidRequest) (data : ByteStr) : BraidResponse :=
  let hash := calculateHash data
  let common := [("Range-Request-Allow-Methods", "PATCH, PUT"),
                 ("Range-Request-Allow-Units", "json"),
                 ("Content-Type", "application/json")]
  if req.subscribeHeader = some "true" then
    if req.flushable then
      { status := 209,
        headers := common ++ [("subscribe", "true"),
                              ("cache-control", "no-cache, no-transform"),
                              ("X-Accel-Buffering", "no")],
        initialBody := encodeFullFrame hash data,
        subscribed := true }
    else
      { status := 500, headers := common,
        initialBody := "Streaming not supported\n", subscribed := false }
  else
    { status := 200,
      headers := common ++ [("Version", hash), ("Parents", "")],
      initialBody := bytesToString data,
      subscribed := false }

/-! ### Dispatch characterization lemmas -/

theorem processSub_eq (ctx : NotifyCtx) (rid : String) (nd : ByteStr) (nh : String)
    (r : Registry) (es : List (String × SinkEvent)) (e : String × Subscription) :
    processSub ctx rid nd nh (r, es) e
      = (if e.2.LastHash = nh then r else updateStored rid e.1 nd nh r,
         es ++ subEvents ctx nd nh e) := rfl

theorem foldl_processSub_snd (ctx : NotifyCtx) (rid : String) (nd : ByteStr) (nh : String)
    (l : Bucket) (r : Registry) (es : List (String × SinkEvent)) :
    (l.foldl (processSub ctx rid nd nh) (r, es)).2
      = es ++ l.flatMap (subEvents ctx nd nh) := by
  induction l generalizing r es with
  | nil => simp
  | cons hd tl ih =>
    rw [List.foldl_cons, processSub_eq, ih, List.flatMap_cons, List.append_assoc]

theorem subEvents_key (ctx : NotifyCtx) (nd : ByteStr) (nh : String)
    (e : String × Subscription) :
    ∀ p ∈ subEvents ctx nd nh e, p.1 = e.1 := by
  intro p hp
  by_cases h1 : e.2.LastHash = nh
  · simp [subEvents, h1] at hp
  · by_cases h2 : e.2.LastResource.isEmpty
    · simp [subEvents, h1, h2] at hp
      rw [hp]
    · rcases hsp : sendPatchUpdate ctx e.2 nd nh with ⟨oev, b⟩
      cases oev with
      | some ev =>
        simp [subEvents, h1, h2, hsp] at hp
        rw [hp]
      | none =>
        cases b with
        | true => simp [subEvents, h1, h2, hsp] at hp
        | false =>
          simp [subEvents, h1, h2, hsp] at hp
          rw [hp]

theorem eventsFor_append (s : String) (a b : List (String × SinkEvent)) :
    eventsFor s (a ++ b) = eventsFor s a ++ eventsFor s b := by
  simp [eventsFor]

theorem eventsFor_all_eq (s : String) (evs : List (String × SinkEvent))
    (h : ∀ p ∈ evs, p.1 = s) : eventsFor s evs = evs.map Prod.snd := by
  induction evs with
  | nil => rfl
  | cons hd tl ih =>
    have hhd : hd.1 = s := h hd (by simp)
    simp only [eventsFor, List.filter_cons, List.map_cons]
    rw [if_pos (by simp [hhd])]
    simp only [List.map_cons]
    rw [show (List.filter (fun p => decide (p.1 = s)) tl).map Prod.snd = eventsFor s tl from rfl,
        ih (fun p hp => h p (by simp [hp]))]

theorem eventsFor_all_ne (s : String) (evs : List (String × SinkEvent))
    (h : ∀ p ∈ evs, p.1 ≠ s) : eventsFor s evs = [] := by
  induction evs with
  | nil => rfl
  | cons hd tl ih =>
    have hhd : hd.1 ≠ s := h hd (by simp)
    simp only [eventsFor, List.filter_cons]
    rw [if_neg (by simp [hhd])]
    exact ih (fun p hp => h p (by simp [hp]))

theorem eventsFor_flatMap_not_mem (ctx : NotifyCtx) (nd : ByteStr) (nh : String)
    (subID : String) (l : Bucket) (h : subID ∉ l.map Prod.fst) :
    eventsFor subID (l.flatMap (subEvents ctx nd nh)) = [] := by
  induction l with
  | nil => rfl
  | cons hd tl ih =>
    rw [List.flatMap_cons, eventsFor_append]
    have hk : hd.1 ≠ subID := by
      intro he
      exact h (by simp [← he])
    rw [eventsFor_all_ne _ _ (fun p hp => by rw [subEvents_key ctx nd nh hd p hp]; exact hk),
        ih (fun hm => h (by simp at hm ⊢; right; exact hm))]
    rfl

theorem eventsFor_flatMap_nodup (ctx : NotifyCtx) (nd : ByteStr) (nh : String)
    (subID : String) (sub : Subscription) (l : Bucket)
    (hnd : (l.map Prod.fst).Nodup) (hmem : (subID, sub) ∈ l) :
    eventsFor subID (l.flatMap (subEvents ctx nd nh))
      = (subEvents ctx nd nh (subID, sub)).map Prod.snd := by
  induction l with
  | nil => cases hmem
  | cons hd tl ih =>
    rw [List.map_cons, List.nodup_cons] at hnd
    rw [List.flatMap_cons, eventsFor_append]
    rcases List.mem_cons.mp hmem with heq | hmemtl
    · have hk : hd = (subID, sub) := heq.symm
      subst hk
      rw [eventsFor_all_eq _ _ (subEvents_key ctx nd nh (subID, sub)),
          eventsFor_flatMap_not_mem ctx nd nh subID tl hnd.1, List.append_nil]
    · have hk : hd.1 ≠ subID := by
        intro he
        exact hnd.1 (he ▸ List.mem_map_of_mem Prod.fst hmemtl)
      rw [eventsFor_all_ne _ _ (fun p hp => by rw [subEvents_key ctx nd nh hd p hp]; exact hk),
          ih hnd.2 hmemtl]
      rfl

theorem lookupKey_of_mem_nodup {α : Type} {k : String} {v : α} {l : List (String × α)}
    (hnd : (l.map Prod.fst).Nodup) (hmem : (k, v) ∈ l) :
    lookupKey k l = some v := by
  induction l with
  | nil => cases hmem
  | cons hd tl ih =>
    rw [List.map_cons, List.nodup_cons] at hnd
    rcases List.mem_cons.mp hmem with heq | hmemtl
    · rw [← heq]
      simp [lookupKey]
    · have hk : hd.1 ≠ k := by
        intro he
        exact hnd.1 (he ▸ List.mem_map_of_mem Prod.fst hmemtl)
      obtain ⟨k2, v2⟩ := hd
      simp only [lookupKey, if_neg hk]
      exact ih hnd.2 hmemtl

theorem updateStored_eq_none {rid k : String} (nd : ByteStr) (nh : String)
    {reg : Registry} {b : Bucket}
    (hb : lookupKey rid reg = some b) (hkb : lookupKey k b = none) :
    updateStored rid k nd nh reg = reg := by
  unfold updateStored
  rw [hb]
  dsimp only
  rw [hkb]

theorem updateStored_eq_some {rid k : String} (nd : ByteStr) (nh : String)
    {reg : Registry} {b : Bucket} {s2 : Subscription}
    (hb : lookupKey rid reg = some b) (hkb : lookupKey k b = some s2) :
    updateStored rid k nd nh reg
      = setKey rid (setKey k { s2 with LastResource := nd, LastHash := nh } b) reg := by
  unfold updateStored
  rw [hb]
  dsimp only
  rw [hkb]

theorem updateStored_lookup_other {rid k subID : String} (nd : ByteStr) (nh : String)
    {reg : Registry} {b : Bucket} {v : Subscription} (hk : k ≠ subID)
    (hb : lookupKey rid reg = some b) (hv : lookupKey subID b = some v) :
    ∃ b2, lookupKey rid (updateStored rid k nd nh reg) = some b2 ∧
      lookupKey subID b2 = some v := by
  cases hkb : lookupKey k b with
  | none =>
    rw [updateStored_eq_none nd nh hb hkb]
    exact ⟨b, hb, hv⟩
  | some s2 =>
    rw [updateStored_eq_some nd nh hb hkb]
    refine ⟨setKey k { s2 with LastResource := nd, LastHash := nh } b, ?_, ?_⟩
    · exact lookupKey_setKey_self rid _ reg
    · rw [lookupKey_setKey_ne _ b (Ne.symm hk)]
      exact hv

theorem fold_lookup_other (ctx : NotifyCtx) (rid : String) (nd : ByteStr) (nh : String)
    (subID : String) (l : Bucket) :
    ∀ (acc : Registry × List (String × SinkEvent)) (b : Bucket) (v : Subscription),
    subID ∉ l.map Prod.fst →
    lookupKey rid acc.1 = some b → lookupKey subID b = some v →
    ∃ b2, lookupKey rid (l.foldl (processSub ctx rid nd nh) acc).1 = some b2 ∧
      lookupKey subID b2 = some v := by
  induction l with
  | nil =>
    intro acc b v _ hb hv
    exact ⟨b, hb, hv⟩
  | cons hd tl ih =>
    intro acc b v hnotin hb hv
    rw [List.foldl_cons]
    have hk : hd.1 ≠ subID := by
      intro he
      exact hnotin (by simp [← he])
    have hnotin2 : subID ∉ tl.map Prod.fst := fun hm => hnotin (by simp at hm ⊢; right; exact hm)
    obtain ⟨r, es⟩ := acc
    rw [processSub_eq]
    by_cases hskip : hd.2.LastHash = nh
    · rw [if_pos hskip]
      exact ih _ b v hnotin2 hb hv
    · rw [if_neg hskip]
      obtain ⟨b2, hb2, hv2⟩ := updateStored_lookup_other nd nh hk hb hv
      exact ih _ b2 v hnotin2 hb2 hv2

theorem fold_lookup_main (ctx : NotifyCtx) (rid : String) (nd : ByteStr) (nh : String)
    (subID : String) (sub : Subscription) (l : Bucket) :
    ∀ (acc : Registry × List (String × SinkEvent)) (b : Bucket),
    (l.map Prod.fst).Nodup → (subID, sub) ∈ l →
    lookupKey rid acc.1 = some b → lookupKey subID b = some sub →
    ∃ b2, lookupKey rid (l.foldl (processSub ctx rid nd nh) acc).1 = some b2 ∧
      lookupKey subID b2 = some (if sub.LastHash = nh then sub
        else { sub with LastResource := nd, LastHash := nh }) := by
  induction l with
  | nil =>
    intro _ _ _ hmem
    cases hmem
  | cons hd tl ih =>
    intro acc b hnd hmem hb hv
    rw [List.map_cons, List.nodup_cons] at hnd
    rw [List.foldl_cons]
    obtain ⟨r, es⟩ := acc
    rw [processSub_eq]
    rcases List.mem_cons.mp hmem with heq | hmemtl
    · have hk : hd = (subID, sub) := heq.symm
      subst hk
      by_cases hskip : sub.LastHash = nh
      · rw [if_pos hskip]
        rw [if_pos hskip]
        exact fold_lookup_other ctx rid nd nh subID tl _ b sub hnd.1 hb hv
      · rw [if_neg hskip]
        rw [if_neg hskip]
        have hup : ∃ b2,
            lookupKey rid (updateStored rid subID nd nh r) = some b2 ∧
            lookupKey subID b2
              = some { sub with LastResource := nd, LastHash := nh } := by
          rw [updateStored_eq_some nd nh hb hv]
          exact ⟨_, lookupKey_setKey_self rid _ r, lookupKey_setKey_self subID _ b⟩
        obtain ⟨b2, hb2, hv2⟩ := hup
        exact fold_lookup_other ctx rid nd nh subID tl _ b2 _ hnd.1 hb2 hv2
    · have hk : hd.1 ≠ subID := by
        intro he
        exact hnd.1 (he ▸ List.mem_map_of_mem Prod.fst hmemtl)
      by_cases hskip : hd.2.LastHash = nh
      · rw [if_pos hskip]
        exact ih _ b hnd.2 hmemtl hb hv
      · rw [if_neg hskip]
        obtain ⟨b2, hb2, hv2⟩ := updateStored_lookup_other nd nh hk hb hv
        exact ih _ b2 hnd.2 hmemtl hb2 hv2

theorem bucket_not_empty_of_mem {l : Bucket} {e : String × Subscription}
    (hmem : e ∈ l) : l.isEmpty = false := by
  cases l with
  | nil => cases hmem
  | cons hd tl => rfl

/-- During a dispatch with new data `nd`, the frames written to the sink of
a stored subscription `(subID, sub)` are exactly that entry's own frames. -/
theorem notify_eventsFor (ctx : NotifyCtx) (reg : Registry) (rid : String)
    (nd : ByteStr) (subs : Bucket) (subID : String) (sub : Subscription)
    (hreg : lookupKey rid reg = some subs)
    (hnd : (subs.map Prod.fst).Nodup) (hmem : (subID, sub) ∈ subs) :
    eventsFor subID (notifySubscribers ctx reg rid nd).2
      = (subEvents ctx nd (calculateHash nd) (subID, sub)).map Prod.snd := by
  unfold notifySubscribers
  rw [hreg]
  simp only [bucket_not_empty_of_mem hmem, Bool.false_eq_true, if_false,
    foldl_processSub_snd, List.nil_append]
  exact eventsFor_flatMap_nodup ctx nd (calculateHash nd) subID sub subs hnd hmem

/-- After a dispatch with new data `nd`, a stored subscription `(subID, sub)`
is still present; it is unchanged when skipped and holds the new body/hash
otherwise. -/
theorem notify_lookup (ctx : NotifyCtx) (reg : Registry) (rid : String)
    (nd : ByteStr) (subs : Bucket) (subID : String) (sub : Subscription)
    (hreg : lookupKey rid reg = some subs)
    (hnd : (subs.map Prod.fst).Nodup) (hmem : (subID, sub) ∈ subs) :
    ∃ b2, lookupKey rid (notifySubscribers ctx reg rid nd).1 = some b2 ∧
      lookupKey subID b2 = some (if sub.LastHash = calculateHash nd then sub
        else { sub with LastResource := nd, LastHash := calculateHash nd }) := by
  unfold notifySubscribers
  rw [hreg]
  simp only [bucket_not_empty_of_mem hmem, Bool.false_eq_true, if_false]
  exact fold_lookup_main ctx rid nd (calculateHash nd) subID sub subs (reg, []) subs
    hnd hmem hreg (lookupKey_of_mem_nodup hnd hmem)

/-! ### Per-subscriber dispatch case lemmas -/

theorem subEvents_skip (ctx : NotifyCtx) (nd : ByteStr) (nh : String)
    (subID : String) (sub : Subscription) (h : sub.LastHash = nh) :
    subEvents ctx nd nh (subID, sub) = [] := by
  simp [subEvents, h]

theorem subEvents_empty_body (ctx : NotifyCtx) (nd : ByteStr) (nh : String)
    (subID : String) (sub : Subscription)
    (h1 : sub.LastHash ≠ nh) (h2 : sub.LastResource = []) :
    subEvents ctx nd nh (subID, sub)
      = [(subID, SinkEvent.full nh nd (ctx.writeOk sub.ID))] := by
  simp [subEvents, h1, h2, sendFullUpdate]

theorem subEvents_diff_fail (ctx : NotifyCtx) (nd : ByteStr) (nh : String)
    (subID : String) (sub : Subscription)
    (h1 : sub.LastHash ≠ nh) (h2 : sub.LastResource ≠ [])
    (h3 : ctx.diff sub.LastResource nd = none) :
    subEvents ctx nd nh (subID, sub)
      = [(subID, SinkEvent.full nh nd (ctx.writeOk sub.ID))] := by
  simp [subEvents, h1, h2, sendPatchUpdate, h3, sendFullUpdate]

theorem subEvents_diff_nil (ctx : NotifyCtx) (nd : ByteStr) (nh : String)
    (subID : String) (sub : Subscription)
    (h1 : sub.LastHash ≠ nh) (h2 : sub.LastResource ≠ [])
    (h3 : ctx.diff sub.LastResource nd = some []) :
    subEvents ctx nd nh (subID, sub) = [] := by
  simp [subEvents, h1, h2, sendPatchUpdate, h3]

theorem subEvents_diff_ops (ctx : NotifyCtx) (nd : ByteStr) (nh : String)
    (subID : String) (sub : Subscription) (op : PatchOp) (ops : List PatchOp)
    (h1 : sub.LastHash ≠ nh) (h2 : sub.LastResource ≠ [])
    (h3 : ctx.diff sub.LastResource nd = some (op :: ops)) :
    subEvents ctx nd nh (subID, sub)
      = [(subID, SinkEvent.patch nh sub.LastHash (op :: ops))] := by
  simp [subEvents, h1, h2, sendPatchUpdate, h3]

/-! ### Remove/add rewriting and invariant lemmas -/

theorem removeSubscription_none {reg : Registry} {rid : String} (sid : String)
    (hb : lookupKey rid reg = none) :
    removeSubscription reg rid sid = reg := by
  unfold removeSubscription
  rw [hb]

theorem removeSubscription_erase {reg : Registry} {rid sid : String} {bucket : Bucket}
    (hb : lookupKey rid reg = some bucket)
    (hemp : (eraseKey sid bucket).isEmpty = true) :
    removeSubscription reg rid sid = eraseKey rid reg := by
  unfold removeSubscription
  rw [hb]
  dsimp only
  rw [if_pos hemp]

theorem removeSubscription_set {reg : Registry} {rid sid : String} {bucket : Bucket}
    (hb : lookupKey rid reg = some bucket)
    (hemp : (eraseKey sid bucket).isEmpty = false) :
    removeSubscription reg rid sid = setKey rid (eraseKey sid bucket) reg := by
  unfold removeSubscription
  rw [hb]
  dsimp only
  rw [hemp]
  simp

theorem all_setKey {α : Type} (f : String × α → Bool) (k : String) (v : α)
    (l : List (String × α)) (hl : l.all f = true) (hv : f (k, v) = true) :
    (setKey k v l).all f = true := by
  induction l with
  | nil => simp [setKey, hv]
  | cons hd tl ih =>
    obtain ⟨k2, v2⟩ := hd
    rw [List.all_cons, Bool.and_eq_true] at hl
    by_cases h : k2 = k
    · simp [setKey, h, hv, hl.2]
    · simp only [setKey, if_neg h, List.all_cons, Bool.and_eq_true]
      exact ⟨hl.1, ih hl.2⟩

theorem all_eraseKey {α : Type} (f : String × α → Bool) (k : String)
    (l : List (String × α)) (hl : l.all f = true) :
    (eraseKey k l).all f = true := by
  induction l with
  | nil => simp [eraseKey]
  | cons hd tl ih =>
    obtain ⟨k2, v2⟩ := hd
    rw [List.all_cons, Bool.and_eq_true] at hl
    by_cases h : k2 = k
    · simp only [eraseKey, if_pos h]
      exact ih hl.2
    · simp only [eraseKey, if_neg h, List.all_cons, Bool.and_eq_true]
      exact ⟨hl.1, ih hl.2⟩

theorem all_lookupKey {α : Type} {f : String × α → Bool} {k : String} {v : α}
    {l : List (String × α)} (hl : l.all f = true) (hk : lookupKey k l = some v) :
    f (k, v) = true := by
  induction l with
  | nil => cases hk
  | cons hd tl ih =>
    obtain ⟨k2, v2⟩ := hd
    rw [List.all_cons, Bool.and_eq_true] at hl
    by_cases h : k2 = k
    · rw [lookupKey, if_pos h] at hk
      cases hk
      exact h ▸ hl.1
    · rw [lookupKey, if_neg h] at hk
      exact ih hl.2 hk

theorem addSubscription_noEmpty {reg : Registry} (rid sid : String) (body : ByteStr)
    (h : noEmptyBucketsB reg = true) :
    noEmptyBucketsB (addSubscription reg rid sid body) = true := by
  unfold addSubscription noEmptyBucketsB
  apply all_setKey _ _ _ _ h
  simp only [Bool.not_eq_true']
  cases hs : setKey sid ⟨sid, body, calculateHash body⟩ ((lookupKey rid reg).getD []) with
  | nil => exact absurd hs (setKey_ne_nil _ _ _)
  | cons hd tl => rfl

theorem removeSubscription_noEmpty {reg : Registry} (rid sid : String)
    (h : noEmptyBucketsB reg = true) :
    noEmptyBucketsB (removeSubscription reg rid sid) = true := by
  cases hb : lookupKey rid reg with
  | none => rw [removeSubscription_none sid hb]; exact h
  | some bucket =>
    cases hemp : (eraseKey sid bucket).isEmpty with
    | true =>
      rw [removeSubscription_erase hb hemp]
      exact all_eraseKey _ _ _ h
    | false =>
      rw [removeSubscription_set hb hemp]
      apply all_setKey _ _ _ _ h
      simp [hemp]

theorem hashOkB_lookup {reg : Registry} {rid : String} {bucket : Bucket}
    (h : hashOkB reg = true) (hb : lookupKey rid reg = some bucket) :
    bucket.all subHashOkB = true :=
  all_lookupKey h hb

theorem addSubscription_hashOk {reg : Registry} (rid sid : String) (body : ByteStr)
    (h : hashOkB reg = true) :
    hashOkB (addSubscription reg rid sid body) = true := by
  unfold addSubscription hashOkB
  apply all_setKey _ _ _ _ h
  apply all_setKey
  · cases hb : lookupKey rid reg with
    | none => rfl
    | some bucket => exact hashOkB_lookup h hb
  · simp [subHashOkB]

theorem removeSubscription_hashOk {reg : Registry} (rid sid : String)
    (h : hashOkB reg = true) :
    hashOkB (removeSubscription reg rid sid) = true := by
  cases hb : lookupKey rid reg with
  | none => rw [removeSubscription_none sid hb]; exact h
  | some bucket =>
    cases hemp : (eraseKey sid bucket).isEmpty with
    | true =>
      rw [removeSubscription_erase hb hemp]
      exact all_eraseKey _ _ _ h
    | false =>
      rw [removeSubscription_set hb hemp]
      apply all_setKey _ _ _ _ h
      exact all_eraseKey _ _ _ (hashOkB_lookup h hb)

theorem updateStored_hashOk {reg : Registry} (rid k : String) (nd : ByteStr)
    (h : hashOkB reg = true) :
    hashOkB (updateStored rid k nd (calculateHash nd) reg) = true := by
  cases hb : lookupKey rid reg with
  | none =>
    unfold updateStored
    rw [hb]
    exact h
  | some bucket =>
    cases hkb : lookupKey k bucket with
    | none =>
      rw [updateStored_eq_none nd (calculateHash nd) hb hkb]
      exact h
    | some s2 =>
      rw [updateStored_eq_some nd (calculateHash nd) hb hkb]
      apply all_setKey _ _ _ _ h
      apply all_setKey _ _ _ _ (hashOkB_lookup h hb)
      simp [subHashOkB]

theorem fold_processSub_hashOk (ctx : NotifyCtx) (rid : String) (nd : ByteStr)
    (l : Bucket) :
    ∀ acc : Registry × List (String × SinkEvent), hashOkB acc.1 = true →
      hashOkB ((l.foldl (processSub ctx rid nd (calculateHash nd)) acc).1) = true := by
  induction l with
  | nil => intro acc h; exact h
  | cons hd tl ih =>
    intro acc h
    rw [List.foldl_cons]
    obtain ⟨r, es⟩ := acc
    rw [processSub_eq]
    by_cases hskip : hd.2.LastHash = calculateHash nd
    · rw [if_pos hskip]
      exact ih _ h
    · rw [if_neg hskip]
      exact ih _ (updateStored_hashOk rid hd.1 nd h)

theorem notify_hashOk (ctx : NotifyCtx) {reg : Registry} (rid : String) (nd : ByteStr)
    (h : hashOkB reg = true) :
    hashOkB (notifySubscribers ctx reg rid nd).1 = true := by
  unfold notifySubscribers
  cases hb : lookupKey rid reg with
  | none => exact h
  | some subs =>
    dsimp only
    cases hemp : subs.isEmpty with
    | true => simpa using h
    | false =>
      simp only [Bool.false_eq_true, if_false]
      exact fold_processSub_hashOk ctx rid nd subs (reg, []) h

/-! ### Claim theorems -/

/-- C8: `RemoveSubscription` is idempotent: for every registry state, resource
ID and subscription ID, removing twice yields the same registry state as
removing once; the second call is a no-op. -/
theorem claimC8 (reg : Registry) (rid sid : String) :
    removeSubscription (removeSubscription reg rid sid) rid sid
      = removeSubscription reg rid sid := by
  cases hb : lookupKey rid reg with
  | none =>
    rw [removeSubscription_none sid hb, removeSubscription_none sid hb]
  | some bucket =>
    cases hemp : (eraseKey sid bucket).isEmpty with
    | true =>
      rw [removeSubscription_erase hb hemp,
          removeSubscription_none sid (lookupKey_eraseKey_self rid reg)]
    | false =>
      rw [removeSubscription_set hb hemp]
      have hb2 : lookupKey rid (setKey rid (eraseKey sid bucket) reg)
          = some (eraseKey sid bucket) := lookupKey_setKey_self rid _ reg
      have hee : eraseKey sid (eraseKey sid bucket) = eraseKey sid bucket :=
        eraseKey_eraseKey sid bucket
      have hemp2 : (eraseKey sid (eraseKey sid bucket)).isEmpty = false := by
        rw [hee]
        exact hemp
      rw [removeSubscription_set hb2 hemp2, hee, setKey_setKey]

theorem foldRegOps_noEmpty (ops : List RegOp) :
    ∀ reg : Registry, noEmptyBucketsB reg = true →
      noEmptyBucketsB (ops.foldl applyRegOp reg) = true := by
  induction ops with
  | nil => intro reg h; exact h
  | cons op rest ih =>
    intro reg h
    rw [List.foldl_cons]
    cases op with
    | add rid sid body => exact ih _ (addSubscription_noEmpty rid sid body h)
    | remove rid sid => exact ih _ (removeSubscription_noEmpty rid sid h)

/-- C9: in every registry state reachable from the empty registry by
`AddSubscription`/`RemoveSubscription` sequences, every resource key maps to
a non-empty bucket. -/
theorem claimC9 (ops : List RegOp) : noEmptyBucketsB (runRegOps ops) = true :=
  foldRegOps_noEmpty ops [] rfl

theorem foldServerOps_hashOk (ops : List ServerOp) :
    ∀ reg : Registry, hashOkB reg = true →
      hashOkB (ops.foldl applyServerOp reg) = true := by
  induction ops with
  | nil => intro reg h; exact h
  | cons op rest ih =>
    intro reg h
    rw [List.foldl_cons]
    cases op with
    | add rid sid body => exact ih _ (addSubscription_hashOk rid sid body h)
    | remove rid sid => exact ih _ (removeSubscription_hashOk rid sid h)
    | notify rid nd ctx => exact ih _ (notify_hashOk ctx rid nd h)

/-- C10: in every registry state reachable from the empty registry by
`AddSubscription`, `RemoveSubscription` and `notifySubscribers`, every stored
subscription satisfies `LastHash = calculateHash LastResource`. -/
theorem claimC10 (ops : List ServerOp) : hashOkB (runServerOps ops) = true :=
  foldServerOps_hashOk ops [] rfl

/-- C1 (amended): during dispatch, for a subscriber with non-empty stored
body and stale hash, a failed diff falls back to a Full Update frame, but a
diff producing zero operations sends no frame at all (no Full Update
fallback). -/
theorem claimC1 (ctx : NotifyCtx) (reg : Registry) (rid : String) (nd : ByteStr)
    (subs : Bucket) (subID : String) (sub : Subscription)
    (hreg : lookupKey rid reg = some subs)
    (hnd : (subs.map Prod.fst).Nodup) (hmem : (subID, sub) ∈ subs)
    (hbody : sub.LastResource ≠ [])
    (hhash : sub.LastHash ≠ calculateHash nd) :
    (ctx.diff sub.LastResource nd = none →
      eventsFor subID (notifySubscribers ctx reg rid nd).2
        = [SinkEvent.full (calculateHash nd) nd (ctx.writeOk sub.ID)]) ∧
    (ctx.diff sub.LastResource nd = some [] →
      eventsFor subID (notifySubscribers ctx reg rid nd).2 = []) := by
  rw [notify_eventsFor ctx reg rid nd subs subID sub hreg hnd hmem]
  constructor
  · intro h3
    rw [subEvents_diff_fail ctx nd (calculateHash nd) subID sub hhash hbody h3]
    rfl
  · intro h3
    rw [subEvents_diff_nil ctx nd (calculateHash nd) subID sub hhash hbody h3]
    rfl

/-- C2 (amended): a failed frame write does not deregister the subscriber —
every stored subscription is still registered after the dispatch — and every
subscriber's frames are determined by its own entry alone, so one
subscriber's write failure never blocks the others. -/
theorem claimC2 (ctx : NotifyCtx) (reg : Registry) (rid : String) (nd : ByteStr)
    (subs : Bucket) (subID : String) (sub : Subscription)
    (hreg : lookupKey rid reg = some subs)
    (hnd : (subs.map Prod.fst).Nodup) (hmem : (subID, sub) ∈ subs) :
    (∃ b2, lookupKey rid (notifySubscribers ctx reg rid nd).1 = some b2 ∧
      (lookupKey subID b2).isSome = true) ∧
    eventsFor subID (notifySubscribers ctx reg rid nd).2
      = (subEvents ctx nd (calculateHash nd) (subID, sub)).map Prod.snd := by
  refine ⟨?_, notify_eventsFor ctx reg rid nd subs subID sub hreg hnd hmem⟩
  obtain ⟨b2, hb2, hv2⟩ := notify_lookup ctx reg rid nd subs subID sub hreg hnd hmem
  refine ⟨b2, hb2, ?_⟩
  rw [hv2]
  rfl

/-- C3 (amended): the stored last body/hash of a subscriber are updated to
the new body/version for every subscriber whose hash differed from the new
version, regardless of whether any frame write succeeded or any frame was
written at all; a subscriber whose hash equals the new version keeps its
stored state. -/
theorem claimC3 (ctx : NotifyCtx) (reg : Registry) (rid : String) (nd : ByteStr)
    (subs : Bucket) (subID : String) (sub : Subscription)
    (hreg : lookupKey rid reg = some subs)
    (hnd : (subs.map Prod.fst).Nodup) (hmem : (subID, sub) ∈ subs) :
    (sub.LastHash ≠ calculateHash nd →
      ∃ b2, lookupKey rid (notifySubscribers ctx reg rid nd).1 = some b2 ∧
        lookupKey subID b2
          = some { sub with LastResource := nd, LastHash := calculateHash nd }) ∧
    (sub.LastHash = calculateHash nd →
      ∃ b2, lookupKey rid (notifySubscribers ctx reg rid nd).1 = some b2 ∧
        lookupKey subID b2 = some sub) := by
  have h := notify_lookup ctx reg rid nd subs subID sub hreg hnd hmem
  constructor
  · intro hcase
    rw [if_neg hcase] at h
    exact h
  · intro hcase
    rw [if_pos hcase] at h
    exact h

/-- C4: during dispatch, a subscriber with empty stored body and stale hash
is written exactly one Full Update frame (the new body) and never a patch
frame, whatever the states of the other subscribers are. -/
theorem claimC4 (ctx : NotifyCtx) (reg : Registry) (rid : String) (nd : ByteStr)
    (subs : Bucket) (subID : String) (sub : Subscription)
    (hreg : lookupKey rid reg = some subs)
    (hnd : (subs.map Prod.fst).Nodup) (hmem : (subID, sub) ∈ subs)
    (hbody : sub.LastResource = [])
    (hhash : sub.LastHash ≠ calculateHash nd) :
    eventsFor subID (notifySubscribers ctx reg rid nd).2
      = [SinkEvent.full (calculateHash nd) nd (ctx.writeOk sub.ID)] := by
  rw [notify_eventsFor ctx reg rid nd subs subID sub hreg hnd hmem,
      subEvents_empty_body ctx nd (calculateHash nd) subID sub hhash hbody]
  rfl

/-- C5 (amended): a subscriber whose stored body equals the new body (and
whose stored hash is the hash of its stored body) receives no frame; a
subscriber with a stale hash is still processed and receives a frame except
exactly when its stored body is non-empty and the diff succeeds with zero
operations. -/
theorem claimC5 (ctx : NotifyCtx) (reg : Registry) (rid : String) (nd : ByteStr)
    (subs : Bucket) (subID : String) (sub : Subscription)
    (hreg : lookupKey rid reg = some subs)
    (hnd : (subs.map Prod.fst).Nodup) (hmem : (subID, sub) ∈ subs) :
    (sub.LastResource = nd → sub.LastHash = calculateHash sub.LastResource →
      eventsFor subID (notifySubscribers ctx reg rid nd).2 = []) ∧
    (sub.LastHash ≠ calculateHash nd →
      (eventsFor subID (notifySubscribers ctx reg rid nd).2 = []
        ↔ sub.LastResource ≠ [] ∧ ctx.diff sub.LastResource nd = some [])) := by
  rw [notify_eventsFor ctx reg rid nd subs subID sub hreg hnd hmem]
  constructor
  · intro h1 h2
    rw [subEvents_skip ctx nd (calculateHash nd) subID sub (by rw [h2, h1])]
    rfl
  · intro hhash
    by_cases hbody : sub.LastResource = []
    · rw [subEvents_empty_body ctx nd (calculateHash nd) subID sub hhash hbody]
      simp [hbody]
    · cases hdiff : ctx.diff sub.LastResource nd with
      | none =>
        rw [subEvents_diff_fail ctx nd (calculateHash nd) subID sub hhash hbody hdiff]
        simp
      | some ops =>
        cases ops with
        | nil =>
          rw [subEvents_diff_nil ctx nd (calculateHash nd) subID sub hhash hbody hdiff]
          simp [hbody]
        | cons op rest =>
          rw [subEvents_diff_ops ctx nd (calculateHash nd) subID sub op rest hhash hbody hdiff]
          simp

/-- C6: every patch frame written to a subscriber carries in its parents
field exactly that subscriber's stored `LastHash` at dispatch time, and
never the new (global latest) version. -/
theorem claimC6 (ctx : NotifyCtx) (reg : Registry) (rid : String) (nd : ByteStr)
    (subs : Bucket) (subID : String) (sub : Subscription)
    (hreg : lookupKey rid reg = some subs)
    (hnd : (subs.map Prod.fst).Nodup) (hmem : (subID, sub) ∈ subs) :
    ∀ v par ops,
      SinkEvent.patch v par ops ∈ eventsFor subID (notifySubscribers ctx reg rid nd).2 →
      par = sub.LastHash ∧ par ≠ calculateHash nd := by
  intro v par ops hin
  rw [notify_eventsFor ctx reg rid nd subs subID sub hreg hnd hmem] at hin
  by_cases hskip : sub.LastHash = calculateHash nd
  · rw [subEvents_skip ctx nd (calculateHash nd) subID sub hskip] at hin
    cases hin
  · by_cases hbody : sub.LastResource = []
    · rw [subEvents_empty_body ctx nd (calculateHash nd) subID sub hskip hbody] at hin
      simp at hin
    · cases hdiff : ctx.diff sub.LastResource nd with
      | none =>
        rw [subEvents_diff_fail ctx nd (calculateHash nd) subID sub hskip hbody hdiff] at hin
        simp at hin
      | some ops2 =>
        cases ops2 with
        | nil =>
          rw [subEvents_diff_nil ctx nd (calculateHash nd) subID sub hskip hbody hdiff] at hin
          cases hin
        | cons op rest =>
          rw [subEvents_diff_ops ctx nd (calculateHash nd) subID sub op rest hskip hbody hdiff] at hin
          simp at hin
          obtain ⟨hv, hpar, hops⟩ := hin
          refine ⟨hpar, ?_⟩
          rw [hpar]
          exact hskip

/-- C7 (amended): a GET on an existing resource over a flushable connection
whose `Subscribe` header value is exactly `"true"` (the header name is
matched case-insensitively, the value case-sensitively) yields status 209,
the subscription headers, and a body stream beginning with the full-update
frame of the current content (empty parents line). -/
theorem claimC7 (req : BraidRequest) (data : ByteStr)
    (hsub : req.subscribeHeader = some "true") (hfl : req.flushable = true) :
    (handleBraidRequest req data).status = 209 ∧
    (handleBraidRequest req data).subscribed = true ∧
    ("subscribe", "true") ∈ (handleBraidRequest req data).headers ∧
    ("cache-control", "no-cache, no-transform") ∈ (handleBraidRequest req data).headers ∧
    ("X-Accel-Buffering", "no") ∈ (handleBraidRequest req data).headers ∧
    ("Range-Request-Allow-Methods", "PATCH, PUT") ∈ (handleBraidRequest req data).headers ∧
    ("Range-Request-Allow-Units", "json") ∈ (handleBraidRequest req data).headers ∧
    ("Content-Type", "application/json") ∈ (handleBraidRequest req data).headers ∧
    (handleBraidRequest req data).initialBody = encodeFullFrame (calculateHash data) data := by
  simp [handleBraidRequest, hsub, hfl]

/-! ### Concrete dispatch scenarios (counterexamples and witnesses)

The diff parameter in each scenario is instantiated with the result
`jsondiff.CompareJSON` produces on the scenario's concrete inputs: `some []`
models JSON-equal but byte-different documents (for example differing only
in whitespace, where the diff succeeds with zero operations), `none` models
a diff error, and `some [op]` a one-operation diff. -/

set_option maxRecDepth 1000000

/-- Scenario for C1: diff succeeds with zero operations (byte-different but
JSON-equal bodies). -/
def ctxC1x : NotifyCtx := ⟨fun _ _ => some [], fun _ => true⟩

def subC1x : Subscription := ⟨"s1", strBytes ("[1, 2]"), calculateHash (strBytes ("[1, 2]"))⟩

def regC1x : Registry := [("/r1", [("s1", subC1x)])]

def ndC1x : ByteStr := strBytes ("[1,2]")

/-- C1 counterexample: a subscriber with non-empty stored body and stale
hash whose diff against the new body produces zero operations is sent no
frame at all — in particular no Full Update frame, contrary to the claim. -/
theorem claimC1_cex :
    subC1x.LastResource ≠ [] ∧
    subC1x.LastHash ≠ calculateHash ndC1x ∧
    ctxC1x.diff subC1x.LastResource ndC1x = some [] ∧
    eventsFor "s1" (notifySubscribers ctxC1x regC1x "/r1" ndC1x).2 = [] :=
  ⟨by decide, by decide, rfl, by decide⟩

/-- Scenario for the C1 witness: the diff fails. -/
def ctxC1w : NotifyCtx := ⟨fun _ _ => none, fun _ => true⟩

def subC1w : Subscription := ⟨"w1", strBytes ("[3]"), calculateHash (strBytes ("[3]"))⟩

def regC1w : Registry := [("/w1b", [("w1", subC1w)])]

def ndC1w : ByteStr := strBytes ("[4]")

/-- C1 witness: on a failed diff the subscriber gets the Full Update
fallback frame. -/
theorem claimC1_witness :
    eventsFor "w1" (notifySubscribers ctxC1w regC1w "/w1b" ndC1w).2
      = [SinkEvent.full (calculateHash ndC1w) ndC1w true] :=
  (claimC1 ctxC1w regC1w "/w1b" ndC1w [("w1", subC1w)] "w1" subC1w (by decide)
    (by decide) (by decide) (by decide) (by decide)).1 rfl

/-- Scenario for C2: the subscriber's sink write fails. -/
def ctxC2x : NotifyCtx := ⟨fun _ _ => some [], fun _ => false⟩

def subC2x : Subscription := ⟨"s2", [], calculateHash []⟩

def regC2x : Registry := [("/r2", [("s2", subC2x)])]

def ndC2x : ByteStr := strBytes ("[5]")

/-- C2 counterexample: the frame write to the only subscriber fails
(`delivered = false`), yet after the dispatch the subscriber is still
registered (with the new state) — it is not deregistered, contrary to the
claim. -/
theorem claimC2_cex :
    eventsFor "s2" (notifySubscribers ctxC2x regC2x "/r2" ndC2x).2
      = [SinkEvent.full (calculateHash ndC2x) ndC2x false] ∧
    lookupKey "/r2" (notifySubscribers ctxC2x regC2x "/r2" ndC2x).1
      = some [("s2", ⟨"s2", ndC2x, calculateHash ndC2x⟩)] :=
  ⟨by decide, by decide⟩

/-- Scenario for the C2 witness. -/
def ctxC2w : NotifyCtx := ⟨fun _ _ => some [], fun _ => false⟩

def subC2w : Subscription := ⟨"w2", [], calculateHash []⟩

def regC2w : Registry := [("/w2b", [("w2", subC2w)])]

def ndC2w : ByteStr := strBytes ("[6]")

/-- C2 witness: after a dispatch whose only write fails, the subscriber is
still registered and its frames are its own entry's frames. -/
theorem claimC2_witness :
    (∃ b2, lookupKey "/w2b" (notifySubscribers ctxC2w regC2w "/w2b" ndC2w).1 = some b2 ∧
      (lookupKey "w2" b2).isSome = true) ∧
    eventsFor "w2" (notifySubscribers ctxC2w regC2w "/w2b" ndC2w).2
      = (subEvents ctxC2w ndC2w (calculateHash ndC2w) ("w2", subC2w)).map Prod.snd :=
  claimC2 ctxC2w regC2w "/w2b" ndC2w [("w2", subC2w)] "w2" subC2w (by decide)
    (by decide) (by decide)

/-- Scenario for C3: the subscriber's sink write fails. -/
def ctxC3x : NotifyCtx := ⟨fun _ _ => none, fun _ => false⟩

def subC3x : Subscription := ⟨"s3", [], calculateHash []⟩

def regC3x : Registry := [("/r3", [("s3", subC3x)])]

def ndC3x : ByteStr := strBytes ("[7]")

/-- C3 counterexample: the only frame write fails, so nothing was ever
successfully written, yet the stored hash is advanced to the new version —
it no longer equals the version last successfully written (the baseline),
contrary to the claim. -/
theorem claimC3_cex :
    eventsFor "s3" (notifySubscribers ctxC3x regC3x "/r3" ndC3x).2
      = [SinkEvent.full (calculateHash ndC3x) ndC3x false] ∧
    lookupKey "/r3" (notifySubscribers ctxC3x regC3x "/r3" ndC3x).1
      = some [("s3", ⟨"s3", ndC3x, calculateHash ndC3x⟩)] ∧
    calculateHash ndC3x ≠ subC3x.LastHash :=
  ⟨by decide, by decide, by decide⟩

/-- Scenario for the C3 witness. -/
def ctxC3w : NotifyCtx := ⟨fun _ _ => none, fun _ => false⟩

def subC3w : Subscription := ⟨"w3", strBytes ("[8]"), calculateHash (strBytes ("[8]"))⟩

def regC3w : Registry := [("/w3b", [("w3", subC3w)])]

def ndC3w : ByteStr := strBytes ("[9]")

/-- C3 witness: a stale subscriber whose write fails still ends up stored
with the new body and hash. -/
theorem claimC3_witness :
    ∃ b2, lookupKey "/w3b" (notifySubscribers ctxC3w regC3w "/w3b" ndC3w).1 = some b2 ∧
      lookupKey "w3" b2 = some ⟨"w3", ndC3w, calculateHash ndC3w⟩ :=
  (claimC3 ctxC3w regC3w "/w3b" ndC3w [("w3", subC3w)] "w3" subC3w (by decide)
    (by decide) (by decide)).1 (by decide)

/-- Scenario for the C4 witness: a first-contact subscriber next to a
subscriber with a non-empty stored body. -/
def ctxC4w : NotifyCtx := ⟨fun _ _ => some [⟨"replace", "/0", "9"⟩], fun _ => true⟩

def subC4a : Subscription := ⟨"a4", [], calculateHash []⟩

def subC4b : Subscription := ⟨"b4", strBytes ("[6]"), calculateHash (strBytes ("[6]"))⟩

def regC4w : Registry := [("/r4", [("a4", subC4a), ("b4", subC4b)])]

def ndC4w : ByteStr := strBytes ("[7, 8]")

/-- C4 witness: the empty-body subscriber receives exactly one Full Update
frame even while another subscriber of the same resource is in a different
state. -/
theorem claimC4_witness :
    eventsFor "a4" (notifySubscribers ctxC4w regC4w "/r4" ndC4w).2
      = [SinkEvent.full (calculateHash ndC4w) ndC4w true] :=
  claimC4 ctxC4w regC4w "/r4" ndC4w [("a4", subC4a), ("b4", subC4b)] "a4" subC4a
    (by decide) (by decide) (by decide) (by decide) (by decide)

/-- Scenario for C5: stored body byte-different from but JSON-equal to the
new body, so the diff yields zero operations. -/
def ctxC5x : NotifyCtx := ⟨fun _ _ => some [], fun _ => true⟩

def subC5x : Subscription := ⟨"s5", strBytes ("[2, 3]"), calculateHash (strBytes ("[2, 3]"))⟩

def regC5x : Registry := [("/r5", [("s5", subC5x)])]

def ndC5x : ByteStr := strBytes ("[2,3]")

/-- C5 counterexample: a subscriber whose stored state differs from the new
body (different bytes, different hash) is processed but receives no frame
(zero-operation diff), contrary to the claim that every differing subscriber
receives a frame. -/
theorem claimC5_cex :
    subC5x.LastResource ≠ ndC5x ∧
    subC5x.LastHash ≠ calculateHash ndC5x ∧
    eventsFor "s5" (notifySubscribers ctxC5x regC5x "/r5" ndC5x).2 = [] :=
  ⟨by decide, by decide, by decide⟩

/-- Scenario for the C5 witness: one subscriber already holds the new body,
another is stale. -/
def ndC5w : ByteStr := strBytes ("[1, 1]")

def ctxC5w : NotifyCtx := ⟨fun _ _ => some [⟨"replace", "/0", "1"⟩], fun _ => true⟩

def subC5e : Subscription := ⟨"e5", ndC5w, calculateHash ndC5w⟩

def subC5o : Subscription := ⟨"o5", strBytes ("[0]"), calculateHash (strBytes ("[0]"))⟩

def regC5w : Registry := [("/w5", [("e5", subC5e), ("o5", subC5o)])]

/-- C5 witness: the subscriber whose stored body equals the new body
receives no frame for the event. -/
theorem claimC5_witness :
    eventsFor "e5" (notifySubscribers ctxC5w regC5w "/w5" ndC5w).2 = [] :=
  (claimC5 ctxC5w regC5w "/w5" ndC5w [("e5", subC5e), ("o5", subC5o)] "e5" subC5e
    (by decide) (by decide) (by decide)).1 rfl rfl

/-- Scenario for the C6 witness: a one-operation diff producing a patch
frame. -/
def ctxC6w : NotifyCtx := ⟨fun _ _ => some [⟨"replace", "/0", "2"⟩], fun _ => true⟩

def subC6w : Subscription := ⟨"w6", strBytes ("[1]"), calculateHash (strBytes ("[1]"))⟩

def regC6w : Registry := [("/w6b", [("w6", subC6w)])]

def ndC6w : ByteStr := strBytes ("[2]")

/-- C6 witness: the concrete patch frame's parents field equals the
subscriber's stored hash and differs from the new version. -/
theorem claimC6_witness :
    calculateHash (strBytes ("[1]")) = subC6w.LastHash ∧
    calculateHash (strBytes ("[1]")) ≠ calculateHash ndC6w :=
  claimC6 ctxC6w regC6w "/w6b" ndC6w [("w6", subC6w)] "w6" subC6w (by decide)
    (by decide) (by decide) (calculateHash ndC6w) (calculateHash (strBytes ("[1]")))
    [⟨"replace", "/0", "2"⟩] (by decide)

/-- Content used in the C7 scenarios. -/
def dataC7 : ByteStr := strBytes ("[1]")

/-- C7 counterexample: a Subscribe header whose value equals `"true"` only
under case-insensitive comparison (here `"True"`, lowercasing to `"true"`)
does not subscribe: the handler answers a plain 200 GET response, not 209 —
the value comparison in the code is case-sensitive. -/
theorem claimC7_cex :
    "True".data.map Char.toLower = "true".data ∧
    (handleBraidRequest ⟨some "True", true⟩ dataC7).status = 200 ∧
    (handleBraidRequest ⟨some "True", true⟩ dataC7).status ≠ 209 ∧
    (handleBraidRequest ⟨some "True", true⟩ dataC7).subscribed = false ∧
    (handleBraidRequest ⟨some "true", true⟩ dataC7).status = 209 :=
  ⟨by decide, by decide, by decide, by decide, by decide⟩

/-- C7 witness: the subscribe response at a concrete request and content. -/
theorem claimC7_witness :
    (handleBraidRequest ⟨some "true", true⟩ (strBytes ("[4, 5]"))).status = 209 ∧
    (handleBraidRequest ⟨some "true", true⟩ (strBytes ("[4, 5]"))).subscribed = true ∧
    ("subscribe", "true")
      ∈ (handleBraidRequest ⟨some "true", true⟩ (strBytes ("[4, 5]"))).headers ∧
    ("cache-control", "no-cache, no-transform")
      ∈ (handleBraidRequest ⟨some "true", true⟩ (strBytes ("[4, 5]"))).headers ∧
    ("X-Accel-Buffering", "no")
      ∈ (handleBraidRequest ⟨some "true", true⟩ (strBytes ("[4, 5]"))).headers ∧
    ("Range-Request-Allow-Methods", "PATCH, PUT")
      ∈ (handleBraidRequest ⟨some "true", true⟩ (strBytes ("[4, 5]"))).headers ∧
    ("Range-Request-Allow-Units", "json")
      ∈ (handleBraidRequest ⟨some "true", true⟩ (strBytes ("[4, 5]"))).headers ∧
    ("Content-Type", "application/json")
      ∈ (handleBraidRequest ⟨some "true", true⟩ (strBytes ("[4, 5]"))).headers ∧
    (handleBraidRequest ⟨some "true", true⟩ (strBytes ("[4, 5]"))).initialBody
      = encodeFullFrame (calculateHash (strBytes ("[4, 5]"))) (strBytes ("[4, 5]")) :=
  claimC7 ⟨some "true", true⟩ (strBytes ("[4, 5]")) rfl rfl

end BraidMock
